import Mathlib

/-!
Verification of the context-assembly and token-budget pipeline of the
P.A.T.C.H conversational backend.  The definitions below are shallow
embeddings of the Python source:

* `app/services/chat_service.py` (`ChatService.process_chat_message`)
* `app/services/context_injector.py` (`ContextInjectorService`)
* `app/services/vector_store.py` (`VectorStoreService.query_documents`)
* `app/core/config.py` (`Settings`)

Conventions: Python float arithmetic on token counts is modelled over `ℚ`
(the quantities involved are small ratios of character counts, and no claim
hinges on binary rounding); `json.dumps` / `json.loads` round trips are
modelled as the identity on a small `JsonValue` type; fallible I/O actions
are modelled as `Except` values supplied by the caller.
-/

/-! ## Similarity index results (`app/services/vector_store.py`) -/

/-- One raw hit of the similarity index, as consumed by the filtering loop
of `VectorStoreService.query_documents`: the parallel entries of the
`ids` / `documents` / `metadatas` / `distances` lists returned by
`collection.query` at one index `j`.  `dist` is a dissimilarity: lower
means more similar. -/
structure RawHit where
  id : String
  content : String
  meta : List (String × String)
  dist : ℚ
deriving DecidableEq

/-- `DocumentQueryResult` (`app/models/document.py`) as built by
`query_documents`: the wrapped document (id, content, metadata) plus the
raw distance. -/
structure QueryResultDoc where
  id : String
  content : String
  meta : List (String × String)
  distance : ℚ
deriving DecidableEq

/-- Filtering loop of `VectorStoreService.query_documents`
(`app/services/vector_store.py`, lines 133-179): for each raw hit, when
`min_similarity_score` is set, compute `calculated_similarity = 1 - dist`
and skip the hit (`continue`) when `calculated_similarity <
min_similarity_score`; otherwise append a `DocumentQueryResult` carrying
the unmodified content and metadata and the original distance. -/
def queryDocumentsFilter (minSimilarityScore : Option ℚ) (hits : List RawHit) :
    List QueryResultDoc :=
  hits.filterMap (fun h =>
    match minSimilarityScore with
    | some t =>
      if 1 - h.dist < t then none
      else some ⟨h.id, h.content, h.meta, h.dist⟩
    | none => some ⟨h.id, h.content, h.meta, h.dist⟩)

/-! ## Layer-3 keyword gating (`app/services/chat_service.py`, lines 129-154) -/

/-- The fixed keyword list `keywords_for_historical_context` of
`ChatService.process_chat_message` (line 131). -/
def keywordsForHistoricalContext : List String :=
  ["yesterday", "last time", "previous conversation", "memory", "remember",
   "before", "information", "informations"]

/-- Python's substring containment `needle in hay` on strings, over
character lists.  An empty needle is contained in every string, matching
Python. -/
def strContainsSub (needle : List Char) : List Char → Bool
  | [] => needle.isEmpty
  | c :: rest => needle.isPrefixOf (c :: rest) || strContainsSub needle rest

/-- The layer-3 gate of `process_chat_message` (line 132):
`any(keyword in user_message_content.lower() for keyword in
keywords_for_historical_context)`.  Python's `str.lower` is modelled as a
per-character lowercase map (faithful on the ASCII keyword set). -/
def historicalKeywordsDetected (userMessageContent : String) : Bool :=
  keywordsForHistoricalContext.any
    (fun k => strContainsSub k.toList
      (userMessageContent.toList.map Char.toLower))

/-- Layer 3 of `process_chat_message` (lines 129-154): if the keyword gate
fires, the long-term-memory collection is queried (first component `true`)
and `history_context_str` is built from the surviving documents (heading
plus one `- content` line per document when any survive, empty otherwise);
if the gate does not fire, no index call is made and the context string
stays empty.  `oracle` stands for the raw hits the index would return for
this query. -/
def layer3Historical (userMessageContent : String) (oracle : List RawHit)
    (threshold : ℚ) : Bool × String :=
  if historicalKeywordsDetected userMessageContent then
    let docs := queryDocumentsFilter (some threshold) oracle
    (true,
      if docs.isEmpty then ""
      else "### Historical Context (Long-Term Memory):\n"
        ++ String.join (docs.map (fun d => "- " ++ d.content ++ "\n")))
  else (false, "")

/-! ## Token budget (`app/services/chat_service.py`, lines 204-208;
`app/core/config.py`, lines 22-25) -/

/-- Default `Settings.LLM_CONTEXT_WINDOW` (`app/core/config.py`, line 23). -/
def LLM_CONTEXT_WINDOW : ℚ := 30000

/-- Default `Settings.LLM_TOKEN_THRESHOLD_PERCENTAGE`
(`app/core/config.py`, line 24): the float `0.90`. -/
def LLM_TOKEN_THRESHOLD_PERCENTAGE : ℚ := 9 / 10

/-- The `len(text) / 4` token approximation used throughout
`process_chat_message` (lines 204 and 218). -/
def tokensOf (s : String) : ℚ := (s.length : ℚ) / 4

/-- `max_history_tokens` of `process_chat_message` (line 208):
`settings.LLM_CONTEXT_WINDOW * (settings.LLM_TOKEN_THRESHOLD_PERCENTAGE /
100) - system_tokens`. -/
def maxHistoryTokens (window thresholdPercentage systemTokens : ℚ) : ℚ :=
  window * (thresholdPercentage / 100) - systemTokens

/-- Budget formula modelled from the spec: "fits within
`configured_context_window × configured_threshold_fraction − reserved`",
with the configured threshold value used directly as the fraction. -/
def specHistoryBudget (window thresholdFraction reserved : ℚ) : ℚ :=
  window * thresholdFraction - reserved

/-! ## History trimming loop (`app/services/chat_service.py`, lines 211-228) -/

/-- One stored chat-history entry as returned by
`ContextInjectorService.get_chat_history`: the dict
`{"role": ..., "content": ..., "timestamp": ...}` written by
`add_message_to_history`. -/
structure ChatTurnMsg where
  role : String
  content : String
  timestamp : String
deriving DecidableEq

/-- A role-tagged message handed to the completion call
(`SystemMessage` / `HumanMessage` / `AIMessage` of the source). -/
inductive LlmMessage where
  | system (content : String)
  | human (content : String)
  | ai (content : String)
deriving DecidableEq

/-- Content carried by an `LlmMessage`. -/
def LlmMessage.contentOf : LlmMessage → String
  | .system c => c
  | .human c => c
  | .ai c => c

/-- The trimming loop of `process_chat_message` (lines 211-228), state
passed explicitly: `trimmed` is the accumulated `trimmed_history` (the
source calls `trimmed_history.insert(0, ...)`, i.e. prepends), `cur` is
`current_history_tokens`.  For each entry of the (chronologically ordered)
input: compute `msg_tokens = len(content)/4`; if
`current_history_tokens + msg_tokens <= max_history_tokens`, prepend a
`HumanMessage` when the role is `"human"`, an `AIMessage` when it is
`"ai"`, nothing otherwise, and add `msg_tokens` to the running total;
otherwise stop (`break`). -/
def trimHistoryGo (budget : ℚ) :
    List ChatTurnMsg → List LlmMessage → ℚ → List LlmMessage × ℚ
  | [], trimmed, cur => (trimmed, cur)
  | m :: rest, trimmed, cur =>
    let t := tokensOf m.content
    if cur + t ≤ budget then
      let trimmed1 :=
        if m.role = "human" then LlmMessage.human m.content :: trimmed
        else if m.role = "ai" then LlmMessage.ai m.content :: trimmed
        else trimmed
      trimHistoryGo budget rest trimmed1 (cur + t)
    else (trimmed, cur)

/-- The trimming loop started on the full history fetched from Redis
(which `get_chat_history` returns in chronological, oldest-first order),
with `trimmed_history = []` and `current_history_tokens = 0`.  Returns
`(trimmed_history, current_history_tokens)`. -/
def trimHistory (fullChatHistory : List ChatTurnMsg) (budget : ℚ) :
    List LlmMessage × ℚ :=
  trimHistoryGo budget fullChatHistory [] 0

/-- `modified_user_message_content` of `process_chat_message`
(lines 234-238): when `past_ai_responses_for_prepend` is non-empty,
prepend `"\n".join(past_ai_responses_for_prepend) + "\n\n"` to the raw
user message; otherwise the raw user message verbatim. -/
def modifiedUserMessage (pastAiResponsesForPrepend : List String)
    (userMessageContent : String) : String :=
  match pastAiResponsesForPrepend with
  | [] => userMessageContent
  | _ =>
    String.intercalate "\n" pastAiResponsesForPrepend ++ "\n\n"
      ++ userMessageContent

/-- `messages_for_llm` as assembled by `process_chat_message`
(lines 190-242): the single system message, then `trimmed_history`
(via `extend`), then exactly one final `HumanMessage` carrying the
(possibly prefixed) current user turn. -/
def messagesForLlm (systemMessageContent : String)
    (fullChatHistory : List ChatTurnMsg) (budget : ℚ)
    (pastAiResponsesForPrepend : List String) (userMessageContent : String) :
    List LlmMessage :=
  LlmMessage.system systemMessageContent
    :: (trimHistory fullChatHistory budget).1
    ++ [LlmMessage.human
          (modifiedUserMessage pastAiResponsesForPrepend userMessageContent)]

/-! ## Stored chat history (`app/services/context_injector.py`, lines 84-131) -/

/-- `ContextInjectorService.MAX_CHAT_HISTORY_LENGTH` (line 18). -/
def MAX_CHAT_HISTORY_LENGTH : Nat := 100

/-- `add_message_to_history` (lines 84-103) on the Redis list state, held
newest-first exactly as the Redis key is: `LPUSH` prepends the new entry,
then `LTRIM key 0 MAX_CHAT_HISTORY_LENGTH - 1` keeps the first
`MAX_CHAT_HISTORY_LENGTH` entries. -/
def addMessageToHistory (stored : List ChatTurnMsg)
    (role content timestamp : String) : List ChatTurnMsg :=
  (ChatTurnMsg.mk role content timestamp :: stored).take MAX_CHAT_HISTORY_LENGTH

/-- `get_chat_history` (lines 105-131) called without a limit:
`LRANGE key 0 -1` reads the whole (newest-first) list and the result is
reversed into chronological, oldest-first order.  Every stored entry was
written by `add_message_to_history` as a JSON object, so the per-entry
decode step always succeeds and is modelled as the identity. -/
def getChatHistory (stored : List ChatTurnMsg) : List ChatTurnMsg :=
  stored.reverse

/-- The Redis list state after appending every message of `ms` in order to
an initially absent key, through `add_message_to_history`. -/
def storedAfterAppends (ms : List ChatTurnMsg) : List ChatTurnMsg :=
  ms.foldl (fun s m => addMessageToHistory s m.role m.content m.timestamp) []

/-! ## Context record (`app/services/context_injector.py`, lines 28-68) -/

/-- A JSON-serializable value stored in a user's context hash.  The source
stores `json.dumps(v)` and reads back `json.loads` of it; that round trip
is the identity and is modelled as such.  (The `updated_at` field is
written as a raw ISO string, which the reader's `json.loads` rejects and
therefore returns as the decoded string itself — observably the same
string value, modelled as `JsonValue.str`.) -/
inductive JsonValue where
  | num (n : ℤ)
  | str (s : String)
deriving DecidableEq

/-- The Redis hash `user_context:<user_id>` as a field map. -/
def emptyContext : String → Option JsonValue := fun _ => none

/-- Key lookup in the `new_context_data` mapping (a Python dict has unique
keys; an association list with first-match lookup models it). -/
def lookupField (k : String) : List (String × JsonValue) → Option JsonValue
  | [] => none
  | (k1, v) :: rest => if k = k1 then some v else lookupField k rest

/-- `ContextInjectorService.update_context` (lines 47-68): serialize every
pair of `new_context_data`, then overwrite the `updated_at` key of that
mapping with the server-side current time, then `HSET` the mapping into
the existing hash (new fields win, absent fields keep their old value).
`now` is the server write time `datetime.now(timezone.utc).isoformat()`. -/
def updateContext (st : String → Option JsonValue) (now : String)
    (newContextData : List (String × JsonValue)) : String → Option JsonValue :=
  fun k =>
    if k = "updated_at" then some (JsonValue.str now)
    else
      match lookupField k newContextData with
      | some v => some v
      | none => st k

/-- `ContextInjectorService.get_current_context` (lines 28-45): `HGETALL`
then a per-field parse whose `json.loads ∘ json.dumps` round trip is the
identity. -/
def getCurrentContext (st : String → Option JsonValue) :
    String → Option JsonValue := st

/-! ## Turn recording (`app/services/chat_service.py`, lines 259-293) -/

/-- The persistence tail of `process_chat_message` (lines 259-293), with
the outcome of each awaited store operation supplied by the caller: the
two `add_message_to_history` awaits (user turn then model turn) are not
inside any `try`, so an exception there propagates; the
`add_documents` write of the new Q&A pair is inside `try/except` and its
failure is logged and swallowed; finally the `ChatResponse` carrying
`ai_response_content` is returned. -/
def recordTurn (appendUserTurn appendModelTurn qaWrite : Except String Unit)
    (aiResponseContent : String) : Except String String :=
  match appendUserTurn with
  | .error e => .error e
  | .ok _ =>
    match appendModelTurn with
    | .error e => .error e
    | .ok _ =>
      match qaWrite with
      | .ok _ => .ok aiResponseContent
      | .error _ => .ok aiResponseContent

/-! ## Theorems -/

/-- C3: the claim says the history budget equals the configured context
window times the configured threshold fraction (the float `0.90`) minus
the reserved system-message cost; the code divides the configured
threshold by 100 before multiplying, so with the repository defaults and
zero reserved tokens it computes 270 tokens (0.9% of the window), not the
claimed 27000. -/
theorem max_history_tokens_default_budget :
    maxHistoryTokens LLM_CONTEXT_WINDOW LLM_TOKEN_THRESHOLD_PERCENTAGE 0 = 270
    ∧ maxHistoryTokens LLM_CONTEXT_WINDOW LLM_TOKEN_THRESHOLD_PERCENTAGE 0
        ≠ specHistoryBudget LLM_CONTEXT_WINDOW LLM_TOKEN_THRESHOLD_PERCENTAGE 0
    ∧ specHistoryBudget LLM_CONTEXT_WINDOW LLM_TOKEN_THRESHOLD_PERCENTAGE 0
        = 27000 := by
  refine ⟨?_, ?_, ?_⟩ <;>
    norm_num [maxHistoryTokens, specHistoryBudget, LLM_CONTEXT_WINDOW,
      LLM_TOKEN_THRESHOLD_PERCENTAGE]

/-- C1: on the chronological history `[old "aaaa", recent "bbbb"]` with
budget 1 token, the trimming loop keeps the oldest turn `"aaaa"` and drops
the most recent turn `"bbbb"`: the budgeter returns a contiguous prefix of
the oldest turns (the loop walks oldest-to-newest), not the claimed suffix
of most recent turns walked newest-to-oldest. -/
theorem chat_service_trim_keeps_oldest_prefix :
    (trimHistory [ChatTurnMsg.mk "human" "aaaa" "t1",
                  ChatTurnMsg.mk "human" "bbbb" "t2"] 1).1
      = [LlmMessage.human "aaaa"]
    ∧ (trimHistory [ChatTurnMsg.mk "human" "aaaa" "t1",
                    ChatTurnMsg.mk "human" "bbbb" "t2"] 1).1
      ≠ [LlmMessage.human "bbbb"] := by
  have h : (trimHistory [ChatTurnMsg.mk "human" "aaaa" "t1",
      ChatTurnMsg.mk "human" "bbbb" "t2"] 1).1 = [LlmMessage.human "aaaa"] := by
    norm_num [trimHistory, trimHistoryGo, tokensOf,
      show String.length "aaaa" = 4 from rfl,
      show String.length "bbbb" = 4 from rfl]
  refine ⟨h, ?_⟩
  rw [h]
  decide

/-- C2: on the chronological history `[human "aaaa", ai "bbbb"]` (both
fitting a 2-token budget), the assembled message list places the included
history in reverse chronological order (`ai "bbbb"` before
`human "aaaa"`), not the claimed chronological order; the single leading
system message and the single trailing current-user message are as
claimed. -/
theorem chat_service_messages_reverse_chronological :
    messagesForLlm "SYS" [ChatTurnMsg.mk "human" "aaaa" "t1",
                          ChatTurnMsg.mk "ai" "bbbb" "t2"] 2 [] "hi"
      = [LlmMessage.system "SYS", LlmMessage.ai "bbbb",
         LlmMessage.human "aaaa", LlmMessage.human "hi"]
    ∧ messagesForLlm "SYS" [ChatTurnMsg.mk "human" "aaaa" "t1",
                            ChatTurnMsg.mk "ai" "bbbb" "t2"] 2 [] "hi"
      ≠ [LlmMessage.system "SYS", LlmMessage.human "aaaa",
         LlmMessage.ai "bbbb", LlmMessage.human "hi"] := by
  have h : messagesForLlm "SYS" [ChatTurnMsg.mk "human" "aaaa" "t1",
      ChatTurnMsg.mk "ai" "bbbb" "t2"] 2 [] "hi"
      = [LlmMessage.system "SYS", LlmMessage.ai "bbbb",
         LlmMessage.human "aaaa", LlmMessage.human "hi"] := by
    norm_num [messagesForLlm, trimHistory, trimHistoryGo, tokensOf,
      modifiedUserMessage,
      show String.length "aaaa" = 4 from rfl,
      show String.length "bbbb" = 4 from rfl,
      eq_false (by decide : ¬ ("ai" : String) = "human")]
  refine ⟨h, ?_⟩
  rw [h]
  decide

/-- C4 counterexample: with budget exactly 0 and a stored history holding
one human turn with empty content, the trimming loop includes that turn
(`0 + 0 ≤ 0` holds), so the returned subset is not empty as the claim
states for every budget `B ≤ 0`. -/
theorem trim_budget_zero_nonempty :
    (trimHistory [ChatTurnMsg.mk "human" "" "t1"] 0).1 = [LlmMessage.human ""]
    ∧ (trimHistory [ChatTurnMsg.mk "human" "" "t1"] 0).1 ≠ [] := by
  have h : (trimHistory [ChatTurnMsg.mk "human" "" "t1"] 0).1
      = [LlmMessage.human ""] := by
    norm_num [trimHistory, trimHistoryGo, tokensOf,
      show String.length "" = 0 from rfl]
  refine ⟨h, ?_⟩
  rw [h]
  decide

/-- C9 counterexample: when the first history append (the user turn)
fails, the failure is not absorbed — `process_chat_message` has no
`try/except` around the two `add_message_to_history` awaits, so the
exception propagates and the chat response is not returned. -/
theorem record_turn_append_failure_propagates :
    recordTurn (Except.error "redis unavailable") (Except.ok ())
        (Except.ok ()) "hello"
      = Except.error "redis unavailable"
    ∧ recordTurn (Except.error "redis unavailable") (Except.ok ())
        (Except.ok ()) "hello"
      ≠ Except.ok "hello" := by
  exact ⟨rfl, by simp [recordTurn]⟩

/-- C9 amended: only the past-Q&A vector-store write is best-effort — its
failure is absorbed and the chat response is still returned — while a
failure of an unguarded history append propagates. -/
theorem record_turn_amended :
    (∀ (qaWrite : Except String Unit) (resp : String),
        recordTurn (Except.ok ()) (Except.ok ()) qaWrite resp
          = Except.ok resp)
    ∧ (∀ (e : String) (a2 qa : Except String Unit) (resp : String),
        recordTurn (Except.error e) a2 qa resp = Except.error e)
    ∧ (∀ (e : String) (qa : Except String Unit) (resp : String),
        recordTurn (Except.ok ()) (Except.error e) qa resp
          = Except.error e) := by
  refine ⟨?_, ?_, ?_⟩
  · intro qaWrite resp
    cases qaWrite <;> rfl
  · intro e a2 qa resp
    rfl
  · intro e qa resp
    rfl

/-- C5: with a configured minimum-similarity threshold `t`, a fragment is
in the output of the `query_documents` filtering step exactly when some
raw hit of the query satisfies `1 - dist ≥ t` and the fragment carries
that hit's id, full content, metadata and distance unchanged (non-survivors
are dropped whole, survivors are never truncated). -/
theorem query_filter_survives_iff (t : ℚ) (hits : List RawHit)
    (q : QueryResultDoc) :
    q ∈ queryDocumentsFilter (some t) hits ↔
      ∃ h ∈ hits, t ≤ 1 - h.dist
        ∧ q = QueryResultDoc.mk h.id h.content h.meta h.dist := by
  rw [queryDocumentsFilter, List.mem_filterMap]
  constructor
  · rintro ⟨h, hmem, hf⟩
    by_cases hc : 1 - h.dist < t
    · simp [hc] at hf
    · simp [hc] at hf
      exact ⟨h, hmem, not_lt.1 hc, hf.symm⟩
  · rintro ⟨h, hmem, hle, rfl⟩
    exact ⟨h, hmem, by simp [not_lt.2 hle]⟩

/-- C6: the first component of `layer3Historical` records whether the
long-term-memory index is queried; it is `true` exactly when some fixed
keyword occurs as a substring of the lowercased user message, and when the
keyword gate does not fire the tier makes no index call and contributes an
empty context string. -/
theorem historical_tier_gating (msg : String) (oracle : List RawHit)
    (t : ℚ) :
    ((layer3Historical msg oracle t).1 = true ↔
      ∃ k ∈ keywordsForHistoricalContext,
        strContainsSub k.toList (msg.toList.map Char.toLower) = true)
    ∧ (historicalKeywordsDetected msg = false →
        layer3Historical msg oracle t = (false, "")) := by
  have h1 : (layer3Historical msg oracle t).1
      = historicalKeywordsDetected msg := by
    by_cases h : historicalKeywordsDetected msg <;> simp [layer3Historical, h]
  constructor
  · rw [h1]
    simp only [historicalKeywordsDetected, List.any_eq_true]
  · intro h
    simp [layer3Historical, h]

/-- Witness for `historical_tier_gating` at the non-triggering message
`"hello"`. -/
theorem historical_tier_gating_witness :
    historicalKeywordsDetected "hello" = false
    ∧ layer3Historical "hello" [] 0 = (false, "") :=
  ⟨by decide, (historical_tier_gating "hello" [] 0).2 (by decide)⟩

/-- Helper: every message the trimming loop ever emits is a
`HumanMessage` or an `AIMessage` (assuming the accumulator only holds
such messages). -/
theorem trimHistoryGo_mem_human_ai (B : ℚ) (hist : List ChatTurnMsg) :
    ∀ (trimmed : List LlmMessage) (cur : ℚ),
      (∀ m ∈ trimmed,
        (∃ c, m = LlmMessage.human c) ∨ (∃ c, m = LlmMessage.ai c)) →
      ∀ msg ∈ (trimHistoryGo B hist trimmed cur).1,
        (∃ c, msg = LlmMessage.human c) ∨ (∃ c, msg = LlmMessage.ai c) := by
  induction hist with
  | nil =>
    intro trimmed cur h msg hmsg
    exact h msg (by simpa [trimHistoryGo] using hmsg)
  | cons m rest ih =>
    intro trimmed cur h msg hmsg
    simp only [trimHistoryGo] at hmsg
    by_cases hc : cur + tokensOf m.content ≤ B
    · rw [if_pos hc] at hmsg
      refine ih _ _ ?_ msg hmsg
      intro m1 hm1
      by_cases h1 : m.role = "human"
      · rw [if_pos h1] at hm1
        rcases List.mem_cons.1 hm1 with rfl | hm1
        · exact Or.inl ⟨m.content, rfl⟩
        · exact h m1 hm1
      · rw [if_neg h1] at hm1
        by_cases h2 : m.role = "ai"
        · rw [if_pos h2] at hm1
          rcases List.mem_cons.1 hm1 with rfl | hm1
          · exact Or.inr ⟨m.content, rfl⟩
          · exact h m1 hm1
        · rw [if_neg h2] at hm1
          exact h m1 hm1
    · rw [if_neg hc] at hmsg
      exact h msg hmsg

/-- C10: in the trimming loop, an entry whose role is neither `"human"`
nor `"ai"` is skipped in the output (the step equation leaves the
accumulated `trimmed_history` unchanged) while its `len(content)/4` cost
is still added to the running total, shrinking the budget left for later
entries; and the loop's output never contains anything but human/ai
messages. -/
theorem trim_unknown_role_counts_tokens :
    (∀ (m : ChatTurnMsg) (rest : List ChatTurnMsg)
        (trimmed : List LlmMessage) (cur B : ℚ),
        m.role ≠ "human" → m.role ≠ "ai" →
        cur + tokensOf m.content ≤ B →
        trimHistoryGo B (m :: rest) trimmed cur
          = trimHistoryGo B rest trimmed (cur + tokensOf m.content))
    ∧ (∀ (hist : List ChatTurnMsg) (B : ℚ),
        ∀ msg ∈ (trimHistory hist B).1,
          (∃ c, msg = LlmMessage.human c) ∨ (∃ c, msg = LlmMessage.ai c)) := by
  constructor
  · intro m rest trimmed cur B h1 h2 hle
    simp only [trimHistoryGo]
    rw [if_pos hle, if_neg h1, if_neg h2]
  · intro hist B msg hmsg
    exact trimHistoryGo_mem_human_ai B hist [] 0 (by simp) msg hmsg

/-- Witness for `trim_unknown_role_counts_tokens` on a fitting
`"system"`-role entry. -/
theorem trim_unknown_role_counts_tokens_witness :
    ("system" : String) ≠ "human"
    ∧ ("system" : String) ≠ "ai"
    ∧ (0 : ℚ) + tokensOf "abcd" ≤ 1
    ∧ trimHistoryGo 1 [ChatTurnMsg.mk "system" "abcd" "t"] [] 0
        = trimHistoryGo 1 [] [] (0 + tokensOf "abcd") := by
  refine ⟨by decide, by decide, ?_, ?_⟩
  · norm_num [tokensOf, show String.length "abcd" = 4 from rfl]
  · exact trim_unknown_role_counts_tokens.1
      (ChatTurnMsg.mk "system" "abcd" "t") [] [] 0 1 (by decide) (by decide)
      (by norm_num [tokensOf, show String.length "abcd" = 4 from rfl])

/-- Helper: the `len(content)/4` approximation is never negative. -/
theorem tokensOf_nonneg (s : String) : 0 ≤ tokensOf s := by
  unfold tokensOf
  positivity

/-- Helper: a string of length zero is the empty string. -/
theorem string_length_zero_eq_empty (s : String) (h : s.length = 0) :
    s = "" := by
  cases s with
  | mk data =>
    simp [String.length] at h
    subst h
    rfl

/-- Helper: with a non-positive budget the running total stays at zero, so
every message the loop emits has empty content. -/
theorem trimHistoryGo_nonpos (B : ℚ) (hB : B ≤ 0) (hist : List ChatTurnMsg) :
    ∀ (trimmed : List LlmMessage) (cur : ℚ), cur = 0 →
      (∀ m ∈ trimmed, m.contentOf = "") →
      ∀ msg ∈ (trimHistoryGo B hist trimmed cur).1, msg.contentOf = "" := by
  induction hist with
  | nil =>
    intro trimmed cur hcur h msg hmsg
    exact h msg (by simpa [trimHistoryGo] using hmsg)
  | cons m rest ih =>
    intro trimmed cur hcur h msg hmsg
    subst hcur
    simp only [trimHistoryGo] at hmsg
    by_cases hc : 0 + tokensOf m.content ≤ B
    · rw [if_pos hc] at hmsg
      have ht0 : tokensOf m.content = 0 := by
        have h1 := tokensOf_nonneg m.content
        linarith
      have hcontent : m.content = "" := by
        have hq : (m.content.length : ℚ) / 4 = 0 := ht0
        rcases div_eq_zero_iff.1 hq with hz | hz
        · exact string_length_zero_eq_empty _ (by exact_mod_cast hz)
        · norm_num at hz
      refine ih _ _ (by simp [ht0]) ?_ msg hmsg
      intro m1 hm1
      by_cases h1 : m.role = "human"
      · rw [if_pos h1] at hm1
        rcases List.mem_cons.1 hm1 with rfl | hm1
        · simp [LlmMessage.contentOf, hcontent]
        · exact h m1 hm1
      · rw [if_neg h1] at hm1
        by_cases h2 : m.role = "ai"
        · rw [if_pos h2] at hm1
          rcases List.mem_cons.1 hm1 with rfl | hm1
          · simp [LlmMessage.contentOf, hcontent]
          · exact h m1 hm1
        · rw [if_neg h2] at hm1
          exact h m1 hm1
    · rw [if_neg hc] at hmsg
      exact h msg hmsg

/-- C4 amended: for every strictly negative budget the trimming loop
returns an empty history subset (and, being a total function, never
raises); at budget exactly 0 the subset may be non-empty but contains only
entries with empty content (zero approximate cost). -/
theorem trim_budget_nonpositive_amended (hist : List ChatTurnMsg) (B : ℚ) :
    (B < 0 → trimHistory hist B = ([], 0))
    ∧ (B ≤ 0 → ∀ msg ∈ (trimHistory hist B).1, msg.contentOf = "") := by
  constructor
  · intro hB
    cases hist with
    | nil => rfl
    | cons m rest =>
      have hnot : ¬ ((0 : ℚ) + tokensOf m.content ≤ B) := by
        have := tokensOf_nonneg m.content
        intro hcon
        linarith
      simp only [trimHistory, trimHistoryGo]
      rw [if_neg hnot]
  · intro hB msg hmsg
    exact trimHistoryGo_nonpos B hB hist [] 0 rfl (by simp) msg hmsg

/-- Witness for `trim_budget_nonpositive_amended` at budgets `-1` and `0`. -/
theorem trim_budget_nonpositive_amended_witness :
    trimHistory [ChatTurnMsg.mk "human" "x" "t"] (-1) = ([], 0)
    ∧ LlmMessage.contentOf (LlmMessage.human "") = "" :=
  ⟨(trim_budget_nonpositive_amended [ChatTurnMsg.mk "human" "x" "t"] (-1)).1
      (by norm_num),
   (trim_budget_nonpositive_amended [ChatTurnMsg.mk "human" "" "t"] 0).2
      (le_refl 0) (LlmMessage.human "")
      (by
        have h : (trimHistory [ChatTurnMsg.mk "human" "" "t"] 0).1
            = [LlmMessage.human ""] := by
          norm_num [trimHistory, trimHistoryGo, tokensOf,
            show String.length "" = 0 from rfl]
        rw [h]
        exact List.mem_singleton.2 rfl)⟩

/-- Helper: taking `n` of an appended list only sees the first `n`
elements of the right part. -/
theorem take_append_take (n : Nat) (l x : List α) :
    (l ++ x.take n).take n = (l ++ x).take n := by
  rw [List.take_append_eq_append_take, List.take_append_eq_append_take,
    List.take_take, Nat.min_eq_left (Nat.sub_le _ _)]

/-- Helper: folding `add_message_to_history` over a message sequence keeps
the most recent `MAX_CHAT_HISTORY_LENGTH` entries, newest first. -/
theorem storedAfterAppends_eq_aux (ms : List ChatTurnMsg) :
    ∀ acc : List ChatTurnMsg, acc.take MAX_CHAT_HISTORY_LENGTH = acc →
      ms.foldl (fun s m => addMessageToHistory s m.role m.content m.timestamp)
          acc
        = (ms.reverse ++ acc).take MAX_CHAT_HISTORY_LENGTH := by
  induction ms with
  | nil =>
    intro acc h
    simpa using h.symm
  | cons m rest ih =>
    intro acc h
    simp only [List.foldl_cons]
    rw [ih (addMessageToHistory acc m.role m.content m.timestamp)
      (by simp [addMessageToHistory, List.take_take])]
    have hm : ChatTurnMsg.mk m.role m.content m.timestamp = m := rfl
    simp only [addMessageToHistory, hm]
    rw [take_append_take]
    simp [List.append_assoc]

/-- C7: after any sequence of `N` appends through
`add_message_to_history`, the stored Redis list holds exactly the
`min N 100` most recent appends, newest first (`LPUSH` then
`LTRIM 0 99`), and `get_chat_history` returns them in chronological,
oldest-first order; since the theorem holds for every sequence, it holds
for every prefix, i.e. after each individual append. -/
theorem history_cap_invariant (ms : List ChatTurnMsg) :
    storedAfterAppends ms = ms.reverse.take MAX_CHAT_HISTORY_LENGTH
    ∧ (storedAfterAppends ms).length = min ms.length MAX_CHAT_HISTORY_LENGTH
    ∧ getChatHistory (storedAfterAppends ms)
        = ms.drop (ms.length - MAX_CHAT_HISTORY_LENGTH)
    ∧ MAX_CHAT_HISTORY_LENGTH = 100 := by
  have h1 : storedAfterAppends ms
      = ms.reverse.take MAX_CHAT_HISTORY_LENGTH := by
    rw [storedAfterAppends, storedAfterAppends_eq_aux ms [] (by simp)]
    simp
  refine ⟨h1, ?_, ?_, rfl⟩
  · rw [h1, List.length_take, List.length_reverse, Nat.min_comm]
  · rw [getChatHistory, h1, List.take_reverse]
    simp

/-- C8: merge-writing `{a: 1}` and then `{b: 2}` for the same user yields
`{a: 1, b: 2, updated_at: <latest write time>}` on read, and after every
`update_context` call the stored `updated_at` field equals the server-side
write time passed to the call, never a client-supplied value (the store
overwrites any `updated_at` key of the incoming data). -/
theorem context_merge_round_trip (t1 t2 : String) :
    (∀ k, getCurrentContext
        (updateContext
          (updateContext emptyContext t1 [("a", JsonValue.num 1)])
          t2 [("b", JsonValue.num 2)]) k
      = if k = "updated_at" then some (JsonValue.str t2)
        else if k = "a" then some (JsonValue.num 1)
        else if k = "b" then some (JsonValue.num 2)
        else none)
    ∧ (∀ (st : String → Option JsonValue) (now : String)
        (data : List (String × JsonValue)),
        updateContext st now data "updated_at" = some (JsonValue.str now)) := by
  constructor
  · intro k
    by_cases h1 : k = "updated_at"
    · subst h1
      rfl
    · by_cases h2 : k = "a"
      · subst h2
        rfl
      · by_cases h3 : k = "b"
        · subst h3
          rfl
        · simp [getCurrentContext, updateContext, lookupField, emptyContext,
            h1, h2, h3]
  · intro st now data
    simp [updateContext]
